import Mathlib

/-!
# Verification of the LLM agent scheduler core

Shallow embedding of the task / scheduler / agent subsystem of the
`llm_agent_scheduler` repository (files `src/task.py`, `src/scheduler.py`,
`src/agent.py`), together with proofs settling the specification claims.

The repository contains two divergent `Task` revisions.  The revision
present in `src/task.py` (statuses QUEUED/RUNNING/COMPLETED/FAILED/PREEMPTED,
types FUNCTION_CALL/API_REQUEST/FILE_OPERATION/CUSTOM) is embedded in the
`TaskPy` namespace.  The generator-driven scheduler in `src/scheduler.py`
is written against a later `Task` revision (additional statuses
WAITING_FOR_TOOL / WAITING_FOR_SUBTASKS, additional types PLANNING /
FINAL_SUMMARY / REASONING / SIMPLE, fields `parent`,
`waiting_for_dependencies`, `waiting_for_subtasks`, `dependencies_names`,
and methods `update_status`, plus a scheduler method `_enqueue_task`) that
is absent from the sources; those missing parts are modelled from the
specification and are marked `Modelled from the spec:` in their doc
comments.  Everything else is translated directly from the source files.
-/

namespace TaskPy

/-- Task statuses of `src/task.py` (`class TaskStatus(str, Enum)`). -/
inductive TaskStatus where
  | queued
  | running
  | completed
  | failed
  | preempted
  deriving DecidableEq, Repr

/-- Task types of `src/task.py` (`class TaskType(str, Enum)`): the four
predefined members FUNCTION_CALL, API_REQUEST, FILE_OPERATION, CUSTOM. -/
inductive TaskType where
  | function_call
  | api_request
  | file_operation
  | custom
  deriving DecidableEq, Repr

/-- Python `str.lower()` on one character (ASCII case mapping). -/
def pyLowerChar (c : Char) : Char :=
  if 65 ≤ c.toNat ∧ c.toNat ≤ 90 then Char.ofNat (c.toNat + 32) else c

/-- Python `str.lower()` (ASCII case mapping, as used on task-type names). -/
def pyLower (s : String) : String :=
  ⟨s.data.map pyLowerChar⟩

/-- The enum constructor call `TaskType(value)` of `src/task.py`: succeeds on
one of the four predefined lowercase values, raises `ValueError` otherwise
(the raising path is embedded as `Except.error`). -/
def TaskType.enumCall (value : String) : Except String TaskType :=
  if value = "function_call" then .ok .function_call
  else if value = "api_request" then .ok .api_request
  else if value = "file_operation" then .ok .file_operation
  else if value = "custom" then .ok .custom
  else .error "ValueError"

/-- Whether the guarded `TaskType(value)` call raises `ValueError`. -/
def TaskType.enumCallFails (value : String) : Bool :=
  match TaskType.enumCall value with
  | .ok _ => false
  | .error _ => true

/-- The `task_type` handling of `Task.__init__` (`src/task.py` lines 36-45)
for a string argument: try `TaskType(task_type.lower())`; on `ValueError`
fall back to `TaskType.CUSTOM` and record the original string in
`metadata["custom_task_type"]`. -/
def initTaskType (task_type : String) : TaskType × Option String :=
  match TaskType.enumCall (pyLower task_type) with
  | .ok t => (t, none)
  | .error _ => (.custom, some task_type)

/-- The fields of `Task` of `src/task.py` relevant to construction. -/
structure Task where
  name : String
  status : TaskStatus
  task_type : TaskType
  result : Option String
  error : Option String
  custom_task_type_metadata : Option String
  deriving DecidableEq, Repr

/-- `Task.__init__` of `src/task.py` called with a string `task_type`,
embedded as `Except` so that a raising construction would be `.error`.
Every statement of the body other than the guarded `TaskType(...)` call is
non-raising, and that call's `ValueError` is caught, so the embedding
returns `.ok` on all inputs exactly as the source does. -/
def Task.init (name : String) (task_type : String) : Except String Task :=
  match initTaskType task_type with
  | (t, meta) =>
    .ok { name := name
          status := .queued
          task_type := t
          result := none
          error := none
          custom_task_type_metadata := meta }

end TaskPy

example : TaskPy.initTaskType "Function_Call" = (.function_call, none) := by decide

example : TaskPy.initTaskType "data_mining" = (.custom, some "data_mining") := by decide

namespace Sched

/-- Task statuses used by `src/scheduler.py`.  The first five are the members
of `TaskStatus` in `src/task.py`.  `waiting_for_tool` and
`waiting_for_subtasks` are referenced by the scheduler but absent from
`src/task.py`; Modelled from the spec: §4.5 lists the additional statuses
`WAITING_FOR_TOOL` and `WAITING_FOR_SUBTASKS`. -/
inductive TaskStatus where
  | queued
  | running
  | completed
  | failed
  | preempted
  | waiting_for_tool
  | waiting_for_subtasks
  deriving DecidableEq, Repr

/-- The string `.value` of each status (`class TaskStatus(str, Enum)` of
`src/task.py`; the two waiting statuses follow the same naming convention,
Modelled from the spec: §4.5). -/
def TaskStatus.value : TaskStatus → String
  | .queued => "queued"
  | .running => "running"
  | .completed => "completed"
  | .failed => "failed"
  | .preempted => "preempted"
  | .waiting_for_tool => "waiting_for_tool"
  | .waiting_for_subtasks => "waiting_for_subtasks"

/-- Task types referenced by `src/scheduler.py` and the planner prompt of
`src/agent.py`: PLANNING and FINAL_SUMMARY (scheduler), REASONING and
FUNCTION_CALL (planner output schema), SIMPLE (default in
`_decompose_and_enqueue_subtasks`).  These members are absent from the
`TaskType` enum of `src/task.py`; Modelled from the spec: §3 lists the type
set of the canonical revision. -/
inductive TaskType where
  | planning
  | final_summary
  | reasoning
  | function_call
  | simple
  deriving DecidableEq, Repr

/-- Python `TaskType[name]` member lookup by name, as used in
`_decompose_and_enqueue_subtasks` (`TaskType[... .upper()]`); an unknown
name raises `KeyError`, embedded as `none`. -/
def TaskType.byName : String → Option TaskType
  | "PLANNING" => some .planning
  | "FINAL_SUMMARY" => some .final_summary
  | "REASONING" => some .reasoning
  | "FUNCTION_CALL" => some .function_call
  | "SIMPLE" => some .simple
  | _ => none

/-- Association-list lookup, embedding Python `dict.get(key)` on a payload
dictionary with string values. -/
def pyDictGet (d : List (String × String)) (key : String) : Option String :=
  match d.find? (fun kv => kv.1 = key) with
  | some kv => some kv.2
  | none => none

/-- Python `dict[key] = value` on a payload dictionary: replaces the value
of an existing key in place, appends a fresh key at the end. -/
def pyDictSet (d : List (String × String)) (key value : String) : List (String × String) :=
  if (d.find? (fun kv => kv.1 = key)).isSome then
    d.map (fun kv => if kv.1 = key then (kv.1, value) else kv)
  else
    d ++ [(key, value)]

/-- The `Task` revision driven by `src/scheduler.py`.  Fields `name`,
`payload`, `status`, `result`, `error`, `created_at`, `started_at`,
`completed_at` and the terminal methods are those of `src/task.py`.
The identity-bearing `id` is a `Nat` standing for the `uuid4` string.
Fields `parent`, `dependencies_names`, `waiting_for_dependencies`,
`waiting_for_subtasks` are referenced by the scheduler but absent from
`src/task.py`; Modelled from the spec: §3 (`parent` back reference,
name-based dependency references resolved to direct references, the
parent's subtask waiting set).  References to other tasks are stored as
task ids (Python stores object references; ids are unique, so membership
and removal coincide). -/
structure Task where
  id : Nat
  name : String
  payload : List (String × String)
  task_type : TaskType
  status : TaskStatus := .queued
  result : Option String := none
  error : Option String := none
  parent : Option Nat := none
  dependencies_names : List String := []
  waiting_for_dependencies : List Nat := []
  waiting_for_subtasks : List Nat := []
  started_at : Option Nat := none
  completed_at : Option Nat := none
  deriving DecidableEq, Repr

/-- `Task.complete` of `src/task.py`: unconditionally sets
`status = COMPLETED`, stores the result and the completion time (the
execution-time bookkeeping is elided).  `now` stands for
`datetime.now()`. -/
def Task.complete (t : Task) (result : Option String) (now : Nat) : Task :=
  { t with status := .completed, result := result, completed_at := some now }

/-- `Task.fail` of `src/task.py`: unconditionally sets `status = FAILED`,
stores the error string and the completion time. -/
def Task.fail (t : Task) (error : String) (now : Nat) : Task :=
  { t with status := .failed, error := some error, completed_at := some now }

/-- `Task.update_status`, called by the scheduler but absent from
`src/task.py`.  Modelled from the spec: §4.5 moves a task along the status
state machine; the method records the new status. -/
def Task.update_status (t : Task) (s : TaskStatus) : Task :=
  { t with status := s }

/-- The scheduler state of `src/scheduler.py` (`Scheduler.__init__`):
the task dictionary (insertion-ordered, keyed by `id`), the pending and
resumption queues (of task references, stored here as ids), the semaphore
value, and the completion counters.  `next_id` stands for the `uuid4`
source of fresh task ids.  The name-to-id map, generator table and logging
fields play no part in the claims and are elided. -/
structure Scheduler where
  max_concurrent_tasks : Nat := 5
  sem_available : Nat := max_concurrent_tasks
  tasks : List Task := []
  pending_queue : List Nat := []
  resumption_queue : List Nat := []
  completed_tasks_count : Nat := 0
  failed_tasks_count : Nat := 0
  next_id : Nat := 0
  deriving DecidableEq, Repr

/-- `self.tasks.get(task_id)`. -/
def Scheduler.getTask (s : Scheduler) (id : Nat) : Option Task :=
  s.tasks.find? (fun t => t.id = id)

/-- Store an updated task object back into the task dictionary (in Python
the mutation is in place; the embedding rewrites the entry with the same
id). -/
def Scheduler.setTask (s : Scheduler) (t : Task) : Scheduler :=
  { s with tasks := s.tasks.map (fun u => if u.id = t.id then t else u) }

/-- `Scheduler.add_task` (`src/scheduler.py` lines 94-102): registers the
task in `self.tasks` and puts it on the pending queue, unconditionally. -/
def Scheduler.add_task (s : Scheduler) (t : Task) : Scheduler :=
  { s with tasks := s.tasks ++ [t], pending_queue := s.pending_queue ++ [t.id] }

/-- `Scheduler._enqueue_task`, called at `src/scheduler.py` line 343 but
defined nowhere in the sources.  Modelled from the spec: §4.5 — a task
whose waiting set has emptied "is enqueued as ready", i.e. put on the FIFO
ready (pending) queue. -/
def Scheduler.enqueue_task (s : Scheduler) (id : Nat) : Scheduler :=
  { s with pending_queue := s.pending_queue ++ [id] }

/-- The dependency-resolution loop of `_handle_task_completion`
(`src/scheduler.py` lines 335-343): every task waiting on the finished
task has it removed from its waiting set, and is enqueued when the set
empties.  The finished task's own status is not consulted. -/
def Scheduler.resolveDependents (s : Scheduler) (finishedId : Nat) : Scheduler :=
  let dependentIds := (s.tasks.filter (fun t => finishedId ∈ t.waiting_for_dependencies)).map (·.id)
  dependentIds.foldl (fun acc depId =>
    match acc.getTask depId with
    | none => acc
    | some depTask =>
      let depTask := { depTask with
        waiting_for_dependencies := depTask.waiting_for_dependencies.erase finishedId }
      let acc := acc.setTask depTask
      if depTask.waiting_for_dependencies = [] then acc.enqueue_task depId else acc) s

/-- The parent-completion step of `_handle_task_completion`
(`src/scheduler.py` lines 345-358): remove the finished subtask from its
parent's `waiting_for_subtasks`; when the set empties and the parent is a
PLANNING task, complete the parent with the finished subtask's result. -/
def Scheduler.closeParent (s : Scheduler) (finished : Task) (now : Nat) : Scheduler :=
  match finished.parent with
  | none => s
  | some pid =>
    match s.getTask pid with
    | none => s
    | some p =>
      if finished.id ∈ p.waiting_for_subtasks then
        let p := { p with waiting_for_subtasks := p.waiting_for_subtasks.erase finished.id }
        let p :=
          if p.waiting_for_subtasks = [] ∧ p.task_type = .planning then
            p.complete finished.result now
          else p
        s.setTask p
      else s

/-- The counter update of `_handle_task_completion` (`src/scheduler.py`
lines 324-329). -/
def Scheduler.bumpCounters (s : Scheduler) (st : TaskStatus) : Scheduler :=
  if st = .completed then
    { s with completed_tasks_count := s.completed_tasks_count + 1 }
  else if st = .failed then
    { s with failed_tasks_count := s.failed_tasks_count + 1 }
  else s

/-- `Scheduler._handle_task_completion` (`src/scheduler.py` lines 321-358):
update the counters, resolve dependents, close the parent.  (Generator
cleanup and logging are elided.) -/
def Scheduler.handle_task_completion (s : Scheduler) (finishedId : Nat) (now : Nat) : Scheduler :=
  match s.getTask finishedId with
  | none => s
  | some finished =>
    ((s.bumpCounters finished.status).resolveDependents finishedId).closeParent finished now

/-- `self.pending_queue.get()` as consumed by `_main_loop`
(`src/scheduler.py` lines 120-132). -/
def Scheduler.popPending (s : Scheduler) : Option (Nat × Scheduler) :=
  match s.pending_queue with
  | [] => none
  | id :: rest => some (id, { s with pending_queue := rest })

/-- One subtask entry of a planner plan: the fields read by
`_decompose_and_enqueue_subtasks` (`subtask_def['name']`,
`subtask_def.get('task_type', 'SIMPLE')`, `subtask_def.get('payload', {})`,
`subtask_def.get('dependencies', [])`). -/
structure SubtaskDef where
  name : String
  task_type : String := "SIMPLE"
  payload : List (String × String) := []
  dependencies : List String := []
  deriving DecidableEq, Repr

/-- A parsed planner plan (`plan.get('subtasks', [])`).  A falsy plan (the
model answered with an empty JSON object) is represented at the call sites
by the absence of a plan. -/
structure Plan where
  subtasks : List SubtaskDef
  deriving DecidableEq, Repr

/-- Python `str.upper()` on one character (ASCII case mapping). -/
def pyUpperChar (c : Char) : Char :=
  if 97 ≤ c.toNat ∧ c.toNat ≤ 122 then Char.ofNat (c.toNat - 32) else c

/-- Python `str.upper()` as applied to planner task-type names. -/
def pyUpper (s : String) : String :=
  ⟨s.data.map pyUpperChar⟩

/-- One iteration of the first pass of `_decompose_and_enqueue_subtasks`
(`src/scheduler.py` lines 262-270): `TaskType[name.upper()]` (raising
`KeyError`, embedded as `.error`, on an unknown name) and the `Task`
constructor call with name, payload, task type and dependency names. -/
def mkSubtask (d : SubtaskDef) (id : Nat) : Except String Task :=
  match TaskType.byName (pyUpper d.task_type) with
  | none => .error "KeyError"
  | some tt =>
    .ok { id := id, name := d.name, payload := d.payload, task_type := tt,
          dependencies_names := d.dependencies }

/-- The first pass of `_decompose_and_enqueue_subtasks`: create a task
object per subtask definition (`new_tasks_map`; faithful for plans whose
subtask names are pairwise distinct, as the Python `dict` would collapse
duplicates). -/
def mkSubtasks (defs : List SubtaskDef) (nextId : Nat) : Except String (List Task) :=
  match defs with
  | [] => .ok []
  | d :: rest => do
    let t ← mkSubtask d nextId
    let ts ← mkSubtasks rest (nextId + 1)
    .ok (t :: ts)

/-- Dependency-name resolution of the second pass (`src/scheduler.py`
lines 277-283): look each name up in `new_tasks_map`, silently skipping
names that match no subtask. -/
def resolveDeps (allTs : List Task) (t : Task) : List Nat :=
  t.dependencies_names.filterMap
    (fun dn => (allTs.find? (fun u => u.name = dn)).map (·.id))

/-- The second pass of `_decompose_and_enqueue_subtasks`
(`src/scheduler.py` lines 272-286): for each created task, set the parent
back reference, add it to the parent's `waiting_for_subtasks`, resolve its
dependency names, and hand it to `add_task` — which registers it AND puts
it on the pending queue, whether or not it has unresolved dependencies. -/
def Scheduler.secondPassStep (parentId : Nat) (allTs : List Task)
    (acc : Scheduler) (t : Task) : Scheduler :=
  let t := { t with parent := some parentId,
                    waiting_for_dependencies := resolveDeps allTs t }
  let acc :=
    match acc.getTask parentId with
    | none => acc
    | some p =>
      if t.id ∈ p.waiting_for_subtasks then acc
      else acc.setTask { p with waiting_for_subtasks := p.waiting_for_subtasks ++ [t.id] }
  acc.add_task t

def Scheduler.secondPass (s : Scheduler) (parentId : Nat) (allTs : List Task) : Scheduler :=
  allTs.foldl (Scheduler.secondPassStep parentId allTs) s

/-- The third pass of `_decompose_and_enqueue_subtasks`
(`src/scheduler.py` lines 288-295): put every subtask whose waiting set is
empty on the pending queue (again — `add_task` already did, for every
subtask). -/
def Scheduler.thirdPassStep (acc : Scheduler) (tid : Nat) : Scheduler :=
  match acc.getTask tid with
  | none => acc
  | some t =>
    if t.waiting_for_dependencies = [] then
      { acc with pending_queue := acc.pending_queue ++ [tid] }
    else acc

def Scheduler.thirdPass (s : Scheduler) (allIds : List Nat) : Scheduler :=
  allIds.foldl Scheduler.thirdPassStep s

/-- `Scheduler._decompose_and_enqueue_subtasks` (`src/scheduler.py` lines
254-295).  A `KeyError` from an unknown task-type name surfaces as
`.error` before any scheduler-state mutation (the first pass creates plain
objects only). -/
def Scheduler.decompose_and_enqueue_subtasks (s : Scheduler) (parentId : Nat)
    (plan : Plan) : Except String Scheduler :=
  if plan.subtasks = [] then .ok s
  else
    match mkSubtasks plan.subtasks s.next_id with
    | .error e => .error e
    | .ok ts =>
      let s := { s with next_id := s.next_id + plan.subtasks.length }
      let s := s.secondPass parentId ts
      .ok (s.thirdPass (ts.map (·.id)))

/-- The possible outcomes of the planner's single model call in
`PlannerAgent.decompose_task` (`src/agent.py` lines 151-167): a parsed
truthy JSON plan, a response whose content is not valid JSON
(`json.JSONDecodeError`), or a raised transport error. -/
inductive PlannerOutcome where
  | plan (p : Plan)
  | invalidJson
  | transportError (e : String)
  deriving DecidableEq, Repr

/-- `PlannerAgent.decompose_task` (`src/agent.py` lines 132-167): `None`
when the payload has no prompt, when JSON decoding fails, or when the
model call raises; the parsed plan otherwise. -/
def decompose_task (task : Task) (outcome : PlannerOutcome) : Option Plan :=
  if (pyDictGet task.payload "prompt").isNone then none
  else
    match outcome with
    | .plan p => some p
    | .invalidJson => none
    | .transportError _ => none

/-- The PLANNING branch of `Scheduler._drive_task` (`src/scheduler.py`
lines 163-179): a plan leads to decomposition and
`WAITING_FOR_SUBTASKS`; no plan (`if plan:` falsy) leads to
`task.complete("Planner returned no plan.")`; an exception during
decomposition leads to `task.fail("Decomposition failed: ...")`. -/
def Scheduler.drivePlanning (s : Scheduler) (taskId : Nat)
    (outcome : PlannerOutcome) (now : Nat) : Scheduler :=
  match s.getTask taskId with
  | none => s
  | some task =>
    match decompose_task task outcome with
    | some plan =>
      match s.decompose_and_enqueue_subtasks taskId plan with
      | .ok s' =>
        match s'.getTask taskId with
        | none => s'
        | some task' => s'.setTask (task'.update_status .waiting_for_subtasks)
      | .error e =>
        let s' := s.setTask (task.fail ("Decomposition failed: " ++ e) now)
        s'.handle_task_completion taskId now
    | none =>
      let s' := s.setTask (task.complete (some "Planner returned no plan.") now)
      s'.handle_task_completion taskId now

/-- `json.dumps` as applied to a task result (a string or `None`);
character escaping inside the string is elided. -/
def pyJsonDumps : Option String → String
  | none => "null"
  | some v => "\"" ++ v ++ "\""

/-- One dependency section of the FINAL_SUMMARY prompt
(`src/scheduler.py` lines 189-191). -/
def summarySection (d : Task) : String :=
  "- Result from '" ++ d.name ++ "':\n" ++
  "  - Status: " ++ d.status.value ++ "\n" ++
  "  - Result: " ++ pyJsonDumps d.result ++ "\n\n"

/-- The summary prompt assembled by the FINAL_SUMMARY branch of
`_drive_task` (`src/scheduler.py` lines 183-191): a fixed header, the
parent payload's `goal` entry (defaulting to `N/A`), and one section per
task still in `waiting_for_dependencies`. -/
def buildSummaryPrompt (goal : Option String) (deps : List Task) : String :=
  "Synthesize the results from the previous steps to provide a final answer to the user's request.\n\n" ++
  "Original user request: " ++ goal.getD "N/A" ++ "\n\n" ++
  "Here are the results from the executed tools:\n" ++
  String.join (deps.map summarySection)

/-- The FINAL_SUMMARY preparation branch of `_drive_task`
(`src/scheduler.py` lines 181-197), taken when the admitted task has
`task_type = FINAL_SUMMARY` and `status = QUEUED`: overwrite
`payload['prompt']` with the assembled summary prompt.  The goal is read
from `task.parent.payload` (a missing parent would raise in Python; the
embedding leaves the state unchanged, and the theorems assume the parent
exists as every FINAL_SUMMARY subtask is created with one). -/
def Scheduler.prepareFinalSummary (s : Scheduler) (taskId : Nat) : Scheduler :=
  match s.getTask taskId with
  | none => s
  | some task =>
    match task.parent.bind s.getTask with
    | none => s
    | some p =>
      let goal := pyDictGet p.payload "goal"
      let deps := task.waiting_for_dependencies.filterMap s.getTask
      let prompt := buildSummaryPrompt goal deps
      s.setTask { task with payload := pyDictSet task.payload "prompt" prompt }

/-- A model-emitted tool call (`response_message.tool_calls[i]`): its `id`,
`function.name` and `function.arguments`. -/
structure ToolCall where
  id : String
  fname : String
  args : String
  deriving DecidableEq, Repr

/-- The model's reply to one chat-completion call inside
`Agent.process_task` (`src/agent.py` lines 82-93): an assistant text, a
batch of tool calls, or a raised transport error. -/
inductive ModelResponse where
  | content (text : String)
  | toolCalls (calls : List ToolCall)
  | transportError (e : String)
  deriving DecidableEq, Repr

/-- What one `asend` observes of the agent generator: a yielded tool-call
request, or generator termination (`StopAsyncIteration`). -/
inductive AgentYield where
  | yielded (calls : List ToolCall)
  | stopIteration
  deriving DecidableEq, Repr

/-- One iteration of the loop of `Agent.process_task` (`src/agent.py`
lines 78-121) as observed through `asend`: a transport error makes the
agent call `task.fail("LLM API call failed: ...")` and return; tool calls
are yielded; a plain assistant reply makes the agent call
`task.complete(final_answer)` and return. -/
def agentStep (task : Task) (response : ModelResponse) (now : Nat) : Task × AgentYield :=
  match response with
  | .transportError e => (task.fail ("LLM API call failed: " ++ e) now, .stopIteration)
  | .toolCalls calls => (task, .yielded calls)
  | .content text => (task.complete (some text) now, .stopIteration)

/-- The standard driving step of `_drive_task` up to the `asend` call
(`src/scheduler.py` lines 200-214): create or resume the generator and set
the status to RUNNING — dependencies are not consulted. -/
def Scheduler.admitStandard (s : Scheduler) (taskId : Nat) : Scheduler :=
  match s.getTask taskId with
  | none => s
  | some task => s.setTask (task.update_status .running)

/-- The handling of the `asend` outcome in `_drive_task`
(`src/scheduler.py` lines 216-244): a yielded (truthy) tool request moves
the task to WAITING_FOR_TOOL; generator termination triggers
`task.complete(task.result)` followed by `_handle_task_completion`. -/
def Scheduler.finishDrive (s : Scheduler) (taskId : Nat)
    (response : ModelResponse) (now : Nat) : Scheduler :=
  match s.getTask taskId with
  | none => s
  | some task =>
    match agentStep task response now with
    | (task', .yielded _) => s.setTask (task'.update_status .waiting_for_tool)
    | (task', .stopIteration) =>
      let task'' := task'.complete task'.result now
      (s.setTask task'').handle_task_completion taskId now

/-- One full admission of a non-planning task with a single model
response: admission to RUNNING, then the `asend` outcome. -/
def Scheduler.driveStandard (s : Scheduler) (taskId : Nat)
    (response : ModelResponse) (now : Nat) : Scheduler :=
  (s.admitStandard taskId).finishDrive taskId response now

/-- A tool-result message as built by `_execute_and_resume_task`
(`src/scheduler.py` lines 309-314). -/
structure ToolResultMsg where
  tool_call_id : String
  role : String
  name : String
  content : String
  deriving DecidableEq, Repr

/-- The tool-execution loop of `Scheduler._execute_and_resume_task`
(`src/scheduler.py` lines 297-319): for each tool call, in emission order,
delegate execution (`exec` stands for
`llm_service.process_and_call_tool`) and build the result message carrying
that call's id, `role = "tool"`, the function name, and the result
content. -/
def executeToolCalls (exec : ToolCall → String) (calls : List ToolCall) : List ToolResultMsg :=
  calls.map (fun c => { tool_call_id := c.id, role := "tool", name := c.fname, content := exec c })

/-- A conversation message of `Agent.process_task`'s `messages` list. -/
inductive Msg where
  | user (content : String)
  | assistant (content : Option String) (tool_calls : List ToolCall)
  | tool (tool_call_id : String) (name : String) (content : String)
  deriving DecidableEq, Repr

/-- The conversation growth of one tool round-trip in `Agent.process_task`
(`src/agent.py` lines 96 and 105-113): the assistant reply carrying the
tool calls is appended, then — after the scheduler resumes the generator
with `tool_results` — one `role:"tool"` message per tool call, in call
order, with `tool_call_id = tool_call.id` and content
`str(tool_results[i])` (`pyStr` stands for Python `str`; the index-wise
pairing is a `zip`, faithful because the scheduler passes exactly one
result per call). -/
def appendToolResults (messages : List Msg) (assistantContent : Option String)
    (calls : List ToolCall) (results : List ToolResultMsg)
    (pyStr : ToolResultMsg → String) : List Msg :=
  (messages ++ [.assistant assistantContent calls]) ++
    (calls.zip results).map (fun cr => .tool cr.1.id cr.1.fname (pyStr cr.2))

/-- The message at position `j`, if a `role:"tool"` message, refers to a
tool call of an earlier assistant message. -/
def toolIdOkAt (ms : List Msg) (j : Nat) : Prop :=
  match ms.get? j with
  | some (.tool id _ _) =>
    ∃ i content calls c, i < j ∧ ms.get? i = some (.assistant content calls) ∧
      c ∈ calls ∧ c.id = id
  | _ => True

/-- Every `role:"tool"` message of the conversation refers to a tool call
of an earlier assistant message. -/
def wfConversation (ms : List Msg) : Prop := ∀ j, toolIdOkAt ms j

end Sched

namespace Sem

/-! Semaphore accounting of `src/scheduler.py`.  `_main_loop` acquires one
slot per dequeued task (line 140) before spawning `_drive_task`, which
acquires a second slot on entry (line 159).  The releases are: line 178
plus the outer `finally` (line 252) on the PLANNING branch; line 243
(conditional on a terminal status) plus line 252 when the drive ends the
task; line 252 alone when the task suspends into WAITING_FOR_TOOL. -/

/-- A semaphore acquire or release. -/
inductive Event where
  | acquire
  | release
  deriving DecidableEq, Repr

/-- How one `_drive_task` invocation ends. -/
inductive DriveOutcome where
  | planningDone
  | terminalDone
  | suspended
  deriving DecidableEq, Repr

/-- The semaphore event of `_main_loop` per admission (line 140). -/
def mainLoopEvents : List Event := [.acquire]

/-- The semaphore events of one `_drive_task` invocation: the entry
acquire (line 159); for the PLANNING branch the releases of line 178 and
line 252; for a drive that ends the task the releases of line 243 and
line 252; for a drive that suspends the task only line 252. -/
def driveTaskEvents : DriveOutcome → List Event
  | .planningDone => [.acquire, .release, .release]
  | .terminalDone => [.acquire, .release, .release]
  | .suspended => [.acquire, .release]

/-- All semaphore events of one admission of a task: the main-loop acquire
followed by the drive's events. -/
def admissionEvents (o : DriveOutcome) : List Event :=
  mainLoopEvents ++ driveTaskEvents o

/-- Net number of slots still held after a sequence of events. -/
def netHeld (es : List Event) : Int :=
  ((es.filter (· = .acquire)).length : Int) - (es.filter (· = .release)).length

/-- Control-flow phase of a task with respect to the semaphore:
dequeued-with-main-loop-slot (`admittedP`), inside a drive (`runningP`),
suspended awaiting a tool (`waitingToolP`), or finished (`doneP`). -/
inductive Phase where
  | queuedP
  | admittedP
  | runningP
  | waitingToolP
  | doneP
  deriving DecidableEq, Repr

/-- A task's phase together with the number of semaphore slots currently
held on its behalf. -/
structure TState where
  phase : Phase
  slots : Nat
  deriving DecidableEq, Repr

/-- The semaphore system: capacity, current `semaphore._value`, and the
tasks. -/
structure SemSys where
  maxSlots : Nat
  available : Nat
  tasks : List TState
  deriving DecidableEq, Repr

/-- The semaphore transitions of `src/scheduler.py`, one constructor per
acquire/release site; each fires for the task at an arbitrary position in
the task list.  The slot-count side conditions record that every release
site executes on a control path that previously acquired those slots. -/
inductive SemStep : SemSys → SemSys → Prop where
  /-- `_main_loop` line 140: dequeue a task and acquire one slot. -/
  | mainAcquire (m a k : Nat) (l₁ l₂ : List TState) (ha : 1 ≤ a) :
      SemStep ⟨m, a, l₁ ++ ⟨.queuedP, k⟩ :: l₂⟩ ⟨m, a - 1, l₁ ++ ⟨.admittedP, k + 1⟩ :: l₂⟩
  /-- `_drive_task` line 159: acquire a second slot on drive entry. -/
  | driveAcquire (m a k : Nat) (l₁ l₂ : List TState) (ha : 1 ≤ a) :
      SemStep ⟨m, a, l₁ ++ ⟨.admittedP, k⟩ :: l₂⟩ ⟨m, a - 1, l₁ ++ ⟨.runningP, k + 1⟩ :: l₂⟩
  /-- The PLANNING branch: drive entry acquire (line 159) then the
  releases of lines 178 and 252, fused into one step. -/
  | planningStep (m a k : Nat) (l₁ l₂ : List TState) (ha : 1 ≤ a) (hk : 1 ≤ k) :
      SemStep ⟨m, a, l₁ ++ ⟨.admittedP, k⟩ :: l₂⟩ ⟨m, a + 1, l₁ ++ ⟨.doneP, k - 1⟩ :: l₂⟩
  /-- Suspension into WAITING_FOR_TOOL: only the outer release of
  line 252 runs (line 243 is skipped, the status not being terminal). -/
  | suspend (m a k : Nat) (l₁ l₂ : List TState) (hk : 1 ≤ k) :
      SemStep ⟨m, a, l₁ ++ ⟨.runningP, k⟩ :: l₂⟩ ⟨m, a + 1, l₁ ++ ⟨.waitingToolP, k - 1⟩ :: l₂⟩
  /-- A drive that ends the task (COMPLETED or FAILED): the releases of
  lines 243 and 252. -/
  | finishRun (m a k : Nat) (l₁ l₂ : List TState) (hk : 2 ≤ k) :
      SemStep ⟨m, a, l₁ ++ ⟨.runningP, k⟩ :: l₂⟩ ⟨m, a + 2, l₁ ++ ⟨.doneP, k - 2⟩ :: l₂⟩
  /-- `_main_loop` line 140 on the resumption queue: a suspended task is
  dequeued and one slot acquired. -/
  | resumeAcquire (m a k : Nat) (l₁ l₂ : List TState) (ha : 1 ≤ a) :
      SemStep ⟨m, a, l₁ ++ ⟨.waitingToolP, k⟩ :: l₂⟩ ⟨m, a - 1, l₁ ++ ⟨.admittedP, k + 1⟩ :: l₂⟩

/-- The initial system: full semaphore, `n` queued tasks holding no
slots. -/
def initSys (m n : Nat) : SemSys :=
  ⟨m, m, List.replicate n ⟨.queuedP, 0⟩⟩

/-- States reachable from an initial system. -/
inductive Reachable : SemSys → Prop where
  | init (m n : Nat) : Reachable (initSys m n)
  | step {s s' : SemSys} : Reachable s → SemStep s s' → Reachable s'

/-- Total slots held across all tasks. -/
def slotsSum (l : List TState) : Nat := (l.map (·.slots)).sum

/-- Number of tasks currently inside a drive. -/
def countRunning (l : List TState) : Nat :=
  (l.filter (fun t => t.phase = .runningP)).length

/-- The semaphore invariant: slot conservation, and per-phase lower bounds
on held slots — in particular a task suspended in WAITING_FOR_TOOL always
holds at least one slot. -/
def Inv (sys : SemSys) : Prop :=
  sys.available + slotsSum sys.tasks = sys.maxSlots ∧
  ∀ t ∈ sys.tasks,
    (t.phase = .queuedP → t.slots = 0) ∧
    (t.phase = .admittedP → 1 ≤ t.slots) ∧
    (t.phase = .runningP → 2 ≤ t.slots) ∧
    (t.phase = .waitingToolP → 1 ≤ t.slots)

theorem slotsSum_middle (l₁ l₂ : List TState) (t : TState) :
    slotsSum (l₁ ++ t :: l₂) = slotsSum l₁ + t.slots + slotsSum l₂ := by
  simp [slotsSum]
  omega

theorem mem_prop_update {P : TState → Prop} {l₁ l₂ : List TState} {told tnew : TState}
    (h : ∀ t ∈ l₁ ++ told :: l₂, P t) (hnew : P tnew) : ∀ t ∈ l₁ ++ tnew :: l₂, P t := by
  intro t ht
  rcases List.mem_append.mp ht with h1 | h2
  · exact h t (List.mem_append.mpr (Or.inl h1))
  · rcases List.mem_cons.mp h2 with rfl | h3
    · exact hnew
    · exact h t (List.mem_append.mpr (Or.inr (List.mem_cons.mpr (Or.inr h3))))

theorem inv_preserved {s s' : SemSys} (h : Inv s) (hs : SemStep s s') : Inv s' := by
  obtain ⟨hsum, hmem⟩ := h
  cases hs with
  | mainAcquire m a k l₁ l₂ ha =>
    refine ⟨?_, mem_prop_update hmem ?_⟩
    · simp [slotsSum_middle] at hsum ⊢
      omega
    · exact ⟨by simp, fun _ => by show 1 ≤ k + 1; omega, by simp, by simp⟩
  | driveAcquire m a k l₁ l₂ ha =>
    have hk : 1 ≤ k :=
      (hmem ⟨.admittedP, k⟩ (List.mem_append.mpr (Or.inr (List.mem_cons_self _ _)))).2.1 rfl
    refine ⟨?_, mem_prop_update hmem ?_⟩
    · simp [slotsSum_middle] at hsum ⊢
      omega
    · exact ⟨by simp, by simp, fun _ => by show 2 ≤ k + 1; omega, by simp⟩
  | planningStep m a k l₁ l₂ ha hk =>
    refine ⟨?_, mem_prop_update hmem ?_⟩
    · simp [slotsSum_middle] at hsum ⊢
      omega
    · exact ⟨by simp, by simp, by simp, by simp⟩
  | suspend m a k l₁ l₂ hk =>
    have h2k : 2 ≤ k :=
      (hmem ⟨.runningP, k⟩ (List.mem_append.mpr (Or.inr (List.mem_cons_self _ _)))).2.2.1 rfl
    refine ⟨?_, mem_prop_update hmem ?_⟩
    · simp [slotsSum_middle] at hsum ⊢
      omega
    · exact ⟨by simp, by simp, by simp, fun _ => by show 1 ≤ k - 1; omega⟩
  | finishRun m a k l₁ l₂ hk =>
    refine ⟨?_, mem_prop_update hmem ?_⟩
    · simp [slotsSum_middle] at hsum ⊢
      omega
    · exact ⟨by simp, by simp, by simp, by simp⟩
  | resumeAcquire m a k l₁ l₂ ha =>
    refine ⟨?_, mem_prop_update hmem ?_⟩
    · simp [slotsSum_middle] at hsum ⊢
      omega
    · exact ⟨by simp, fun _ => by show 1 ≤ k + 1; omega, by simp, by simp⟩

theorem inv_of_reachable {sys : SemSys} (h : Reachable sys) : Inv sys := by
  induction h with
  | init m n =>
    refine ⟨?_, ?_⟩
    · simp [initSys, slotsSum, List.map_replicate]
    · intro t ht
      have := List.eq_of_mem_replicate ht
      subst this
      exact ⟨fun _ => rfl, by simp, by simp, by simp⟩
  | step _ hs ih => exact inv_preserved ih hs

theorem two_mul_countRunning_le_slotsSum (l : List TState)
    (h : ∀ t ∈ l, t.phase = .runningP → 2 ≤ t.slots) :
    2 * countRunning l ≤ slotsSum l := by
  induction l with
  | nil => simp [countRunning, slotsSum]
  | cons t l ih =>
    have ih' := ih (fun u hu => h u (List.mem_cons.mpr (Or.inr hu)))
    unfold countRunning slotsSum at ih' ⊢
    rw [List.filter_cons]
    by_cases hp : t.phase = .runningP
    · have ht := h t (List.mem_cons_self t l) hp
      simp [hp]
      omega
    · simp [hp]
      omega

theorem countRunning_le_max {sys : SemSys} (h : Reachable sys) :
    countRunning sys.tasks ≤ sys.maxSlots := by
  obtain ⟨hsum, hmem⟩ := inv_of_reachable h
  have h2 := two_mul_countRunning_le_slotsSum sys.tasks (fun t ht => (hmem t ht).2.2.1)
  omega

end Sem

namespace Sched

theorem executeToolCalls_length (exec : ToolCall → String) (calls : List ToolCall) :
    (executeToolCalls exec calls).length = calls.length := by
  simp [executeToolCalls]

theorem executeToolCalls_id (exec : ToolCall → String) (calls : List ToolCall) (i : Nat) :
    ((executeToolCalls exec calls).get? i).map (·.tool_call_id) = ((calls.get? i).map (·.id)) := by
  unfold executeToolCalls
  rw [List.get?_map]
  cases hx : calls.get? i <;> simp

theorem executeToolCalls_role (exec : ToolCall → String) (calls : List ToolCall) :
    ∀ r ∈ executeToolCalls exec calls, r.role = "tool" := by
  intro r hr
  simp only [executeToolCalls, List.mem_map] at hr
  obtain ⟨c, _, rfl⟩ := hr
  rfl

theorem wf_appendToolResults (ms : List Msg) (content : Option String)
    (calls : List ToolCall) (results : List ToolResultMsg)
    (pyStr : ToolResultMsg → String) (hwf : wfConversation ms) :
    wfConversation (appendToolResults ms content calls results pyStr) := by
  unfold appendToolResults
  set A : Msg := Msg.assistant content calls with hA
  set Z : List Msg :=
    (calls.zip results).map (fun cr => Msg.tool cr.1.id cr.1.fname (pyStr cr.2)) with hZ
  intro j
  unfold toolIdOkAt
  rcases lt_trichotomy j ms.length with hj | hj | hj
  · have h1 : j < (ms ++ [A]).length := by
      simp
      omega
    have e1 : ((ms ++ [A]) ++ Z).get? j = ms.get? j := by
      rw [List.get?_append h1, List.get?_append hj]
    rw [e1]
    have hw := hwf j
    unfold toolIdOkAt at hw
    cases hms : ms.get? j with
    | none => trivial
    | some m =>
      rw [hms] at hw
      cases m with
      | user c => trivial
      | assistant c tc => trivial
      | tool id nm ct =>
        obtain ⟨i, content', calls', c, hi, hgeti, hc, hcid⟩ := hw
        have hi1 : i < ms.length := Nat.lt_trans hi hj
        have hi2 : i < (ms ++ [A]).length := by
          simp
          omega
        exact ⟨i, content', calls', c, hi, by rw [List.get?_append hi2, List.get?_append hi1]; exact hgeti, hc, hcid⟩
  · have h1 : j < (ms ++ [A]).length := by
      simp
      omega
    have e1 : ((ms ++ [A]) ++ Z).get? j = some A := by
      rw [List.get?_append h1, List.get?_append_right (le_of_eq hj.symm)]
      simp [hj]
    rw [e1, hA]
    trivial
  · have h2 : (ms ++ [A]).length ≤ j := by
      simp
      omega
    have e1 : ((ms ++ [A]) ++ Z).get? j = Z.get? (j - (ms ++ [A]).length) :=
      List.get?_append_right h2
    rw [e1]
    cases hz : Z.get? (j - (ms ++ [A]).length) with
    | none => trivial
    | some m =>
      rw [hZ, List.get?_map] at hz
      rw [Option.map_eq_some'] at hz
      obtain ⟨cr, hcr, rfl⟩ := hz
      have hmem : cr ∈ calls.zip results := List.get?_mem hcr
      have hcmem : cr.1 ∈ calls := (List.of_mem_zip hmem).1
      have hgetA : ((ms ++ [A]) ++ Z).get? ms.length = some A := by
        have hlt : ms.length < (ms ++ [A]).length := by simp
        rw [List.get?_append hlt, List.get?_append_right (le_refl ms.length)]
        simp
      exact ⟨ms.length, content, calls, cr.1, hj, hgetA, hcmem, rfl⟩

theorem getTask_id {s : Scheduler} {id : Nat} {t : Task} (h : s.getTask id = some t) :
    t.id = id := by
  unfold Scheduler.getTask at h
  have := List.find?_some h
  simpa using this

theorem mem_of_getTask {s : Scheduler} {id : Nat} {t : Task} (h : s.getTask id = some t) :
    t ∈ s.tasks :=
  List.mem_of_find?_eq_some h

theorem find?_map_set_self (l : List Task) (t u : Task)
    (h : l.find? (fun x => x.id = t.id) = some u) :
    (l.map (fun x => if x.id = t.id then t else x)).find? (fun x => x.id = t.id) = some t := by
  induction l with
  | nil => simp at h
  | cons v l ih =>
    rw [List.map_cons]
    by_cases hv : v.id = t.id
    · rw [if_pos hv]
      rw [List.find?_cons_of_pos _ (by simp)]
    · rw [if_neg hv]
      rw [List.find?_cons_of_neg _ (by simp [hv])] at h
      rw [List.find?_cons_of_neg _ (by simp [hv])]
      exact ih h

theorem find?_map_set_ne (l : List Task) (t : Task) (id : Nat) (h : id ≠ t.id) :
    (l.map (fun x => if x.id = t.id then t else x)).find? (fun x => x.id = id) =
      l.find? (fun x => x.id = id) := by
  induction l with
  | nil => simp
  | cons v l ih =>
    rw [List.map_cons]
    by_cases hv : v.id = t.id
    · rw [if_pos hv]
      have h1 : ¬ (t.id = id) := fun e => h e.symm
      have h2 : ¬ (v.id = id) := by rw [hv]; exact h1
      rw [List.find?_cons_of_neg _ (by simp [h1]), List.find?_cons_of_neg _ (by simp [h2])]
      exact ih
    · rw [if_neg hv]
      by_cases hvi : v.id = id
      · rw [List.find?_cons_of_pos _ (by simp [hvi]), List.find?_cons_of_pos _ (by simp [hvi])]
      · rw [List.find?_cons_of_neg _ (by simp [hvi]), List.find?_cons_of_neg _ (by simp [hvi])]
        exact ih

theorem getTask_setTask_self {s : Scheduler} {t u : Task} (h : s.getTask t.id = some u) :
    (s.setTask t).getTask t.id = some t := by
  unfold Scheduler.getTask Scheduler.setTask at *
  exact find?_map_set_self s.tasks t u h

theorem getTask_setTask_ne {s : Scheduler} {t : Task} {id : Nat} (h : id ≠ t.id) :
    (s.setTask t).getTask id = s.getTask id := by
  unfold Scheduler.getTask Scheduler.setTask
  exact find?_map_set_ne s.tasks t id h

theorem getTask_enqueue (s : Scheduler) (id tid : Nat) :
    (s.enqueue_task tid).getTask id = s.getTask id := rfl

theorem filter_waiting_eq_nil {s : Scheduler} {fid : Nat}
    (h : ∀ t ∈ s.tasks, fid ∉ t.waiting_for_dependencies) :
    s.tasks.filter (fun t => fid ∈ t.waiting_for_dependencies) = [] := by
  rw [List.filter_eq_nil]
  intro t ht
  simpa using h t ht

theorem resolveDependents_eq_self {s : Scheduler} {fid : Nat}
    (h : ∀ t ∈ s.tasks, fid ∉ t.waiting_for_dependencies) :
    s.resolveDependents fid = s := by
  unfold Scheduler.resolveDependents
  rw [filter_waiting_eq_nil h]
  rfl

theorem closeParent_parent_none {s : Scheduler} {finished : Task} {now : Nat}
    (h : finished.parent = none) : s.closeParent finished now = s := by
  unfold Scheduler.closeParent
  rw [h]

theorem resolveDependents_single {s : Scheduler} {fid : Nat} {v : Task}
    (hfilter : s.tasks.filter (fun t => fid ∈ t.waiting_for_dependencies) = [v])
    (hv : s.getTask v.id = some v) :
    s.resolveDependents fid =
      (if v.waiting_for_dependencies.erase fid = [] then
        (s.setTask { v with waiting_for_dependencies := v.waiting_for_dependencies.erase fid }).enqueue_task v.id
      else
        s.setTask { v with waiting_for_dependencies := v.waiting_for_dependencies.erase fid }) := by
  unfold Scheduler.resolveDependents
  rw [hfilter]
  simp only [List.map_cons, List.map_nil, List.foldl_cons, List.foldl_nil]
  rw [hv]

theorem bumpCounters_tasks (s : Scheduler) (st : TaskStatus) :
    (s.bumpCounters st).tasks = s.tasks := by
  unfold Scheduler.bumpCounters
  split
  · rfl
  · split <;> rfl

theorem bumpCounters_pending (s : Scheduler) (st : TaskStatus) :
    (s.bumpCounters st).pending_queue = s.pending_queue := by
  unfold Scheduler.bumpCounters
  split
  · rfl
  · split <;> rfl

theorem getTask_congr_tasks {s₁ s₂ : Scheduler} (h : s₁.tasks = s₂.tasks) (id : Nat) :
    s₁.getTask id = s₂.getTask id := by
  unfold Scheduler.getTask
  rw [h]

theorem getTask_bumpCounters (s : Scheduler) (st : TaskStatus) (id : Nat) :
    (s.bumpCounters st).getTask id = s.getTask id :=
  getTask_congr_tasks (bumpCounters_tasks s st) id

theorem nodep_setTask {s : Scheduler} {t : Task} {fid : Nat}
    (hnodep : ∀ u ∈ s.tasks, fid ∉ u.waiting_for_dependencies)
    (ht : fid ∉ t.waiting_for_dependencies) :
    ∀ u ∈ (s.setTask t).tasks, fid ∉ u.waiting_for_dependencies := by
  intro u hu
  unfold Scheduler.setTask at hu
  simp only [List.mem_map] at hu
  obtain ⟨w, hw, rfl⟩ := hu
  by_cases h : w.id = t.id
  · simpa [h] using ht
  · simpa [h] using hnodep w hw

theorem tasks_length_setTask (s : Scheduler) (t : Task) :
    (s.setTask t).tasks.length = s.tasks.length := by
  simp [Scheduler.setTask]

theorem getTask_setTask_of_getTask {s : Scheduler} {tid : Nat} {task t : Task}
    (hget : s.getTask tid = some task) (hid : t.id = task.id) :
    (s.setTask t).getTask tid = some t := by
  have htid : task.id = tid := getTask_id hget
  have h0 : s.getTask t.id = some task := by
    rw [hid, htid]
    exact hget
  have h1 := getTask_setTask_self h0
  rw [show t.id = tid from by rw [hid]; exact htid] at h1
  exact h1

theorem add_task_pending (s : Scheduler) (t : Task) :
    (s.add_task t).pending_queue = s.pending_queue ++ [t.id] := rfl

theorem secondPassStep_pending (parentId : Nat) (allTs : List Task)
    (acc : Scheduler) (t : Task) :
    (Scheduler.secondPassStep parentId allTs acc t).pending_queue =
      acc.pending_queue ++ [t.id] := by
  unfold Scheduler.secondPassStep
  cases h : acc.getTask parentId with
  | none =>
    simp only [h]
    rfl
  | some p =>
    simp only [h]
    split <;> rfl

theorem foldl_secondPassStep_pending (parentId : Nat) (allTs : List Task) :
    ∀ (l : List Task) (s : Scheduler),
      (l.foldl (Scheduler.secondPassStep parentId allTs) s).pending_queue =
        s.pending_queue ++ l.map (·.id) := by
  intro l
  induction l with
  | nil => intro s; simp
  | cons t l ih =>
    intro s
    rw [List.foldl_cons, ih, secondPassStep_pending]
    simp

theorem thirdPassStep_pending_mono (acc : Scheduler) (tid : Nat) :
    ∃ e, (Scheduler.thirdPassStep acc tid).pending_queue = acc.pending_queue ++ e := by
  unfold Scheduler.thirdPassStep
  cases h : acc.getTask tid with
  | none => exact ⟨[], by simp⟩
  | some t =>
    by_cases hw : t.waiting_for_dependencies = []
    · exact ⟨[tid], by simp [hw]⟩
    · exact ⟨[], by simp [hw]⟩

theorem foldl_thirdPassStep_pending (ids : List Nat) :
    ∀ s : Scheduler, ∃ e,
      (ids.foldl Scheduler.thirdPassStep s).pending_queue = s.pending_queue ++ e := by
  induction ids with
  | nil => intro s; exact ⟨[], by simp⟩
  | cons tid ids ih =>
    intro s
    rw [List.foldl_cons]
    obtain ⟨e1, he1⟩ := thirdPassStep_pending_mono s tid
    obtain ⟨e2, he2⟩ := ih (Scheduler.thirdPassStep s tid)
    exact ⟨e1 ++ e2, by rw [he2, he1, List.append_assoc]⟩

theorem handle_completed_noop {s : Scheduler} {fid : Nat} {now : Nat} {finished : Task}
    (hget : s.getTask fid = some finished)
    (hstatus : finished.status = .completed)
    (hnodep : ∀ t ∈ s.tasks, fid ∉ t.waiting_for_dependencies)
    (hpar : finished.parent = none) :
    s.handle_task_completion fid now =
      { s with completed_tasks_count := s.completed_tasks_count + 1 } := by
  unfold Scheduler.handle_task_completion
  simp only [hget]
  have hbc : s.bumpCounters finished.status =
      { s with completed_tasks_count := s.completed_tasks_count + 1 } := by
    unfold Scheduler.bumpCounters
    rw [if_pos hstatus]
  rw [hbc]
  rw [resolveDependents_eq_self
    (s := { s with completed_tasks_count := s.completed_tasks_count + 1 }) hnodep]
  exact closeParent_parent_none hpar

end Sched

open Sched

/-! ## Claim C1: propagation of dependency failure -/

/-- C1 fixture: a FAILED dependency `u` (id 0) and a QUEUED dependent `v`
(id 1) waiting only on `u`. -/
def uC1 : Task :=
  { id := 0, name := "u", payload := [], task_type := .reasoning,
    status := .failed, error := some "boom", completed_at := some 1 }

def vC1 : Task :=
  { id := 1, name := "v", payload := [("prompt", "go")], task_type := .reasoning,
    waiting_for_dependencies := [0] }

def sC1 : Scheduler := { tasks := [uC1, vC1] }

/-- **C1, counterexample.**  The claim says a task with a FAILED dependency
transitions directly from QUEUED to FAILED with a propagated error and is
never admitted.  In the code, handling the FAILED dependency `u` leaves the
dependent `v` QUEUED with no error and puts it on the ready queue (from
which the main loop admits it to RUNNING). -/
theorem C1_counterexample :
    ((sC1.handle_task_completion 0 2).getTask 1).map Task.status = some .queued ∧
    ¬ (((sC1.handle_task_completion 0 2).getTask 1).map Task.status = some .failed) ∧
    ((sC1.handle_task_completion 0 2).getTask 1).map Task.error = some none ∧
    (sC1.handle_task_completion 0 2).pending_queue = [1] := by
  decide

/-- **C1, amended.**  When a task with a single dependent finishes — with
any terminal status, FAILED included; the dependency-resolution loop of
`_handle_task_completion` never reads it — the finished task is removed
from the dependent's waiting set and, if the set empties, the dependent is
re-enqueued on the ready queue with status and error unchanged; no failure
is propagated. -/
theorem C1_amended (s : Scheduler) (fid vid : Nat) (v : Task)
    (hfilter : s.tasks.filter (fun t => fid ∈ t.waiting_for_dependencies) = [v])
    (hv : s.getTask vid = some v) (hvid : v.id = vid) :
    ∃ v', ((s.resolveDependents fid).getTask vid = some v') ∧
      v'.status = v.status ∧ v'.error = v.error ∧
      v'.waiting_for_dependencies = v.waiting_for_dependencies.erase fid ∧
      (v.waiting_for_dependencies.erase fid = [] →
        (s.resolveDependents fid).pending_queue = s.pending_queue ++ [vid]) ∧
      (¬ v.waiting_for_dependencies.erase fid = [] →
        (s.resolveDependents fid).pending_queue = s.pending_queue) := by
  have hv' : s.getTask v.id = some v := by rw [hvid]; exact hv
  rw [resolveDependents_single hfilter hv']
  by_cases herase : v.waiting_for_dependencies.erase fid = []
  · rw [if_pos herase]
    refine ⟨{ v with waiting_for_dependencies := v.waiting_for_dependencies.erase fid },
      ?_, rfl, rfl, rfl, ?_, ?_⟩
    · rw [getTask_enqueue]
      rw [← hvid]
      exact getTask_setTask_self hv'
    · intro _
      show (s.setTask _).pending_queue ++ [v.id] = s.pending_queue ++ [vid]
      rw [hvid]
      rfl
    · intro hne
      exact absurd herase hne
  · rw [if_neg herase]
    refine ⟨{ v with waiting_for_dependencies := v.waiting_for_dependencies.erase fid },
      ?_, rfl, rfl, rfl, fun he => absurd he herase, fun _ => rfl⟩
    rw [← hvid]
    exact getTask_setTask_self hv'

/-- C1 witness: the amended theorem applied to the concrete fixture. -/
theorem C1_amended_witness :
    ∃ v', ((sC1.resolveDependents 0).getTask 1 = some v') ∧
      v'.status = vC1.status ∧ v'.error = vC1.error ∧
      v'.waiting_for_dependencies = [] ∧
      (sC1.resolveDependents 0).pending_queue = [1] := by
  obtain ⟨v', h1, h2, h3, h4, h5, _⟩ :=
    C1_amended sC1 0 1 vC1 (by decide) (by decide) (by decide)
  refine ⟨v', h1, h2, h3, ?_, ?_⟩
  · rw [h4]
    decide
  · rw [h5 (by decide)]
    decide

/-! ## Claim C2: concurrency bound and suspension slots -/

/-- A concrete reachable semaphore state: one task admitted, driven, and
suspended into WAITING_FOR_TOOL. -/
theorem reachC2 : Sem.Reachable ⟨5, 4, [⟨Sem.Phase.waitingToolP, 1⟩]⟩ := by
  have h0 : Sem.Reachable (Sem.initSys 5 1) := Sem.Reachable.init 5 1
  have h1 : Sem.Reachable ⟨5, 4, [⟨Sem.Phase.admittedP, 1⟩]⟩ :=
    Sem.Reachable.step h0 (Sem.SemStep.mainAcquire 5 5 0 [] [] (by norm_num))
  have h2 : Sem.Reachable ⟨5, 3, [⟨Sem.Phase.runningP, 2⟩]⟩ :=
    Sem.Reachable.step h1 (Sem.SemStep.driveAcquire 5 4 1 [] [] (by norm_num))
  exact Sem.Reachable.step h2 (Sem.SemStep.suspend 5 3 2 [] [] (by norm_num))

/-- **C2, counterexample.**  The claim says a task in WAITING_FOR_TOOL
holds no semaphore slot and every slot acquired on its behalf is released
at suspension.  In the code each admission acquires two slots (main loop
line 140 and drive entry line 159) but suspension releases only one
(line 252): the net held count of a suspended admission is 1, not 0, and a
reachable state has a WAITING_FOR_TOOL task holding one slot. -/
theorem C2_counterexample :
    Sem.Reachable ⟨5, 4, [⟨Sem.Phase.waitingToolP, 1⟩]⟩ ∧
    (⟨Sem.Phase.waitingToolP, 1⟩ : Sem.TState).slots ≠ 0 ∧
    Sem.netHeld (Sem.admissionEvents .suspended) = 1 ∧
    Sem.netHeld (Sem.admissionEvents .terminalDone) = 0 :=
  ⟨reachC2, by decide, by decide, by decide⟩

/-- **C2, amended.**  In every reachable state the number of tasks inside
a drive is at most `max_concurrent_tasks` (each holds two slots), but a
task suspended in WAITING_FOR_TOOL retains at least one unreleased
slot. -/
theorem C2_amended (sys : Sem.SemSys) (h : Sem.Reachable sys) :
    Sem.countRunning sys.tasks ≤ sys.maxSlots ∧
    ∀ t ∈ sys.tasks, t.phase = .waitingToolP → 1 ≤ t.slots :=
  ⟨Sem.countRunning_le_max h,
   fun t ht hp => ((Sem.inv_of_reachable h).2 t ht).2.2.2 hp⟩

/-- C2 witness: the amended theorem at the concrete reachable state. -/
theorem C2_amended_witness :
    Sem.countRunning [⟨Sem.Phase.waitingToolP, 1⟩] ≤ 5 ∧
    ∀ t ∈ ([⟨Sem.Phase.waitingToolP, 1⟩] : List Sem.TState),
      t.phase = .waitingToolP → 1 ≤ t.slots :=
  C2_amended ⟨5, 4, [⟨Sem.Phase.waitingToolP, 1⟩]⟩ reachC2

/-! ## Claim C5: terminality of COMPLETED / FAILED -/

def tC5 : Task :=
  { id := 0, name := "t", payload := [("prompt", "p")], task_type := .reasoning }

def sC5 : Scheduler := { tasks := [tC5] }

/-- **C5, counterexample.**  The claim says a terminal task's status and
result never change.  `Task.fail` marks the task FAILED, after which the
driver's StopAsyncIteration handler calls `task.complete(task.result)` and
the status changes to COMPLETED — exactly what `driveStandard` does on a
transport error. -/
theorem C5_counterexample :
    (tC5.fail "LLM API call failed: boom" 3).status = .failed ∧
    ((tC5.fail "LLM API call failed: boom" 3).complete
      (tC5.fail "LLM API call failed: boom" 3).result 4).status = .completed ∧
    ((tC5.fail "LLM API call failed: boom" 3).complete
      (tC5.fail "LLM API call failed: boom" 3).result 4).status ≠
      (tC5.fail "LLM API call failed: boom" 3).status ∧
    ((sC5.driveStandard 0 (.transportError "boom") 3).getTask 0).map Task.status =
      some .completed := by
  decide

/-- **C5, amended.**  `Task.complete` and `Task.fail` overwrite `status`,
`result` and `error` unconditionally: even on a task whose status is
already terminal, `complete` yields COMPLETED and `fail` yields FAILED
(terminality is not enforced anywhere). -/
theorem C5_amended (t : Task) (r : Option String) (e : String) (n : Nat)
    (h : t.status = .completed ∨ t.status = .failed) :
    (t.complete r n).status = .completed ∧ (t.complete r n).result = r ∧
    (t.fail e n).status = .failed ∧ (t.fail e n).error = some e :=
  ⟨rfl, rfl, rfl, rfl⟩

/-- C5 witness: the amended theorem on an already-FAILED concrete task. -/
theorem C5_amended_witness :
    ((tC5.fail "x" 1).complete (some "r") 2).status = TaskStatus.completed ∧
    ((tC5.fail "x" 1).complete (some "r") 2).result = some "r" ∧
    (((tC5.fail "x" 1)).fail "y" 2).status = TaskStatus.failed ∧
    (((tC5.fail "x" 1)).fail "y" 2).error = some "y" :=
  C5_amended (tC5.fail "x" 1) (some "r") "y" 2 (Or.inr rfl)

/-! ## Claim C10: Task construction with an unknown task-type string -/

/-- **C10.**  `Task.__init__` of `src/task.py` never raises on a string
`task_type`: construction always succeeds, an unrecognised string falls
back to `TaskType.CUSTOM`, and a recognised one yields the matching
member. -/
theorem C10_construction_total (name ts : String) :
    (∃ task, TaskPy.Task.init name ts = .ok task) ∧
    (∀ task, TaskPy.Task.init name ts = .ok task →
      (TaskPy.TaskType.enumCallFails (TaskPy.pyLower ts) = true →
        task.task_type = .custom) ∧
      (∀ t, TaskPy.TaskType.enumCall (TaskPy.pyLower ts) = .ok t →
        task.task_type = t)) := by
  unfold TaskPy.Task.init TaskPy.initTaskType
  cases h : TaskPy.TaskType.enumCall (TaskPy.pyLower ts) with
  | ok t =>
    refine ⟨⟨_, rfl⟩, ?_⟩
    intro task htask
    constructor
    · intro he
      unfold TaskPy.TaskType.enumCallFails at he
      rw [h] at he
      exact Bool.noConfusion he
    · intro t' ht'
      cases ht'
      cases htask
      rfl
  | error e =>
    refine ⟨⟨_, rfl⟩, ?_⟩
    intro task htask
    constructor
    · intro _
      cases htask
      rfl
    · intro t' ht'
      exact Except.noConfusion ht'

/-- C10 witness: the unknown string `"data_mining"` yields a CUSTOM
task. -/
theorem C10_witness :
    ∃ task, TaskPy.Task.init "n" "data_mining" = .ok task ∧
      task.task_type = .custom := by
  obtain ⟨⟨task, htask⟩, hspec⟩ := C10_construction_total "n" "data_mining"
  exact ⟨task, htask, (hspec task htask).1 (by decide)⟩

/-! ## Claim C3: planning errors -/

def tC3 : Task :=
  { id := 0, name := "root", payload := [("prompt", "do research")], task_type := .planning }

def sC3 : Scheduler := { tasks := [tC3], next_id := 1 }

/-- A plan with one subtask and no FINAL_SUMMARY entry. -/
def planC3NoSummary : Plan := ⟨[⟨"a", "REASONING", [("prompt", "x")], []⟩]⟩

/-- **C3, counterexample.**  The claim says an invalid-JSON planner output
fails the PLANNING task and that plans with zero FINAL_SUMMARY entries are
refused.  In the code the planner returns `None` on invalid JSON and the
driver *completes* the task with "Planner returned no plan."; and a plan
with no FINAL_SUMMARY entry is accepted: subtasks are created and the task
moves to WAITING_FOR_SUBTASKS. -/
theorem C3_counterexample :
    ((sC3.drivePlanning 0 .invalidJson 3).getTask 0).map Task.status = some .completed ∧
    ¬ (((sC3.drivePlanning 0 .invalidJson 3).getTask 0).map Task.status = some .failed) ∧
    ((sC3.drivePlanning 0 .invalidJson 3).getTask 0).map Task.result =
      some (some "Planner returned no plan.") ∧
    (sC3.drivePlanning 0 .invalidJson 3).tasks.length = 1 ∧
    ((sC3.drivePlanning 0 (.plan planC3NoSummary) 4).getTask 0).map Task.status =
      some .waiting_for_subtasks ∧
    (sC3.drivePlanning 0 (.plan planC3NoSummary) 4).tasks.length = 2 := by
  decide

/-- **C3, amended.**  An invalid-JSON planner response makes
`decompose_task` return no plan, upon which the PLANNING task becomes
COMPLETED (not FAILED) with result "Planner returned no plan."; no
subtasks are created and nothing is enqueued.  (Zero or multiple
FINAL_SUMMARY entries are not checked anywhere; see the counterexample's
last two conjuncts.) -/
theorem C3_amended (s : Scheduler) (tid now : Nat) (task : Task) (pr : String)
    (hget : s.getTask tid = some task)
    (hprompt : pyDictGet task.payload "prompt" = some pr)
    (hnodep : ∀ t ∈ s.tasks, tid ∉ t.waiting_for_dependencies)
    (hpar : task.parent = none) :
    ∃ t', (s.drivePlanning tid .invalidJson now).getTask tid = some t' ∧
      t'.status = .completed ∧ t'.result = some "Planner returned no plan." ∧
      (s.drivePlanning tid .invalidJson now).tasks.length = s.tasks.length ∧
      (s.drivePlanning tid .invalidJson now).pending_queue = s.pending_queue := by
  have htid : task.id = tid := getTask_id hget
  unfold Scheduler.drivePlanning
  simp only [hget]
  have hdt : decompose_task task .invalidJson = none := by
    unfold decompose_task
    rw [hprompt]
    rfl
  rw [hdt]
  have hged : (s.setTask (task.complete (some "Planner returned no plan.") now)).getTask tid =
      some (task.complete (some "Planner returned no plan.") now) := by
    have h0 : s.getTask (task.complete (some "Planner returned no plan.") now).id = some task := by
      rw [show (task.complete (some "Planner returned no plan.") now).id = tid from htid]
      exact hget
    have h1 := getTask_setTask_self h0
    rw [show (task.complete (some "Planner returned no plan.") now).id = tid from htid] at h1
    exact h1
  rw [handle_completed_noop hged rfl
    (nodep_setTask hnodep (hnodep task (mem_of_getTask hget))) hpar]
  exact ⟨task.complete (some "Planner returned no plan.") now, hged, rfl, rfl,
    tasks_length_setTask s _, rfl⟩

/-- C3 witness: the amended theorem at the concrete fixture. -/
theorem C3_amended_witness :
    ∃ t', (sC3.drivePlanning 0 .invalidJson 3).getTask 0 = some t' ∧
      t'.status = .completed ∧ t'.result = some "Planner returned no plan." := by
  obtain ⟨t', h1, h2, h3, _, _⟩ :=
    C3_amended sC3 0 3 tC3 "do research" (by decide) (by decide)
      (by decide) (by decide)
  exact ⟨t', h1, h2, h3⟩

/-! ## Claim C4: model-transport errors -/

def tC4 : Task :=
  { id := 0, name := "t4", payload := [("prompt", "q")], task_type := .reasoning }

def sC4 : Scheduler := { tasks := [tC4] }

/-- **C4, counterexample.**  The claim says a transport error terminates
the task FAILED with the error string in `result`.  In the code the agent
calls `task.fail` (error string goes into `error`, `result` untouched),
the generator returns, and the driver's StopAsyncIteration handler calls
`task.complete(task.result)`: the task ends COMPLETED with `result =
None`. -/
theorem C4_counterexample :
    ((sC4.driveStandard 0 (.transportError "boom") 3).getTask 0).map Task.status =
      some .completed ∧
    ¬ (((sC4.driveStandard 0 (.transportError "boom") 3).getTask 0).map Task.status =
      some .failed) ∧
    ((sC4.driveStandard 0 (.transportError "boom") 3).getTask 0).map Task.result =
      some none ∧
    ((sC4.driveStandard 0 (.transportError "boom") 3).getTask 0).map Task.error =
      some (some "LLM API call failed: boom") := by
  decide

/-- **C4, amended.**  On a model-transport error the agent marks the task
FAILED with "LLM API call failed: <e>" in the `error` field, the
generator terminates, and the driver then re-marks the task COMPLETED with
`result` unchanged (None for a task that produced no result). -/
theorem C4_amended (s : Scheduler) (tid now : Nat) (task : Task) (e : String)
    (hget : s.getTask tid = some task)
    (hres : task.result = none)
    (hnodep : ∀ t ∈ s.tasks, tid ∉ t.waiting_for_dependencies)
    (hpar : task.parent = none) :
    ∃ t', (s.driveStandard tid (.transportError e) now).getTask tid = some t' ∧
      t'.status = .completed ∧ t'.result = none ∧
      t'.error = some ("LLM API call failed: " ++ e) := by
  have htid : task.id = tid := getTask_id hget
  have hmem := mem_of_getTask hget
  unfold Scheduler.driveStandard Scheduler.admitStandard
  simp only [hget]
  have hs1 : (s.setTask (task.update_status .running)).getTask tid =
      some (task.update_status .running) := by
    have h0 : s.getTask (task.update_status .running).id = some task := by
      rw [show (task.update_status .running).id = tid from htid]
      exact hget
    have h1 := getTask_setTask_self h0
    rw [show (task.update_status .running).id = tid from htid] at h1
    exact h1
  unfold Scheduler.finishDrive
  simp only [hs1]
  unfold agentStep
  set tfail := (task.update_status .running).fail ("LLM API call failed: " ++ e) now with htfail
  set tdone := tfail.complete tfail.result now with htdone
  have hs2 : ((s.setTask (task.update_status .running)).setTask tdone).getTask tid =
      some tdone := by
    have h0 : (s.setTask (task.update_status .running)).getTask tdone.id =
        some (task.update_status .running) := by
      rw [show tdone.id = tid from htid]
      exact hs1
    have h1 := getTask_setTask_self h0
    rw [show tdone.id = tid from htid] at h1
    exact h1
  have hnodep1 := nodep_setTask (t := task.update_status .running) hnodep (hnodep task hmem)
  have hnodep2 := nodep_setTask (t := tdone) hnodep1 (hnodep task hmem)
  dsimp only
  rw [handle_completed_noop hs2 rfl hnodep2 hpar]
  refine ⟨tdone, hs2, rfl, ?_, rfl⟩
  show tfail.result = none
  show task.result = none
  exact hres

/-- C4 witness: the amended theorem at the concrete fixture. -/
theorem C4_amended_witness :
    ∃ t', (sC4.driveStandard 0 (.transportError "boom") 3).getTask 0 = some t' ∧
      t'.status = .completed ∧ t'.result = none ∧
      t'.error = some ("LLM API call failed: " ++ "boom") :=
  C4_amended sC4 0 3 tC4 "boom" (by decide) (by decide) (by decide) (by decide)

/-! ## Claim C6: parent completion after subtasks -/

def pC6 : Task :=
  { id := 0, name := "root", payload := [("prompt", "g")], task_type := .planning,
    status := .waiting_for_subtasks, waiting_for_subtasks := [1] }

def subC6 : Task :=
  { id := 1, name := "s1", payload := [], task_type := .reasoning,
    status := .failed, result := some "partial", error := some "err", parent := some 0 }

def sC6 : Scheduler := { tasks := [pC6, subC6], next_id := 2 }

/-- **C6, counterexample.**  The claim says a parent whose subtask FAILED
becomes FAILED, and otherwise completes with its designated FINAL_SUMMARY
subtask's result.  In the code, when the last subtask finishes — here a
FAILED one — the PLANNING parent is unconditionally *completed* with that
last subtask's result. -/
theorem C6_counterexample :
    ((sC6.handle_task_completion 1 5).getTask 0).map Task.status = some .completed ∧
    ¬ (((sC6.handle_task_completion 1 5).getTask 0).map Task.status = some .failed) ∧
    ((sC6.handle_task_completion 1 5).getTask 0).map Task.result =
      some (some "partial") := by
  decide

/-- **C6, amended.**  When a subtask with a PLANNING parent finishes (with
any terminal status), it is removed from the parent's
`waiting_for_subtasks`; if the set empties the parent is completed —
COMPLETED, never FAILED — with the result of that last-finishing subtask
(not of any designated summary subtask); otherwise the parent's status and
result are unchanged. -/
theorem C6_amended (s : Scheduler) (fid pid now : Nat) (finished p : Task)
    (hget : s.getTask fid = some finished) (hpar : finished.parent = some pid)
    (hp : s.getTask pid = some p) (hmem : fid ∈ p.waiting_for_subtasks)
    (htype : p.task_type = .planning)
    (hnodep : ∀ t ∈ s.tasks, fid ∉ t.waiting_for_dependencies) :
    ∃ p', (s.handle_task_completion fid now).getTask pid = some p' ∧
      p'.waiting_for_subtasks = p.waiting_for_subtasks.erase fid ∧
      (p.waiting_for_subtasks.erase fid = [] →
        p'.status = .completed ∧ p'.result = finished.result) ∧
      (¬ p.waiting_for_subtasks.erase fid = [] →
        p'.status = p.status ∧ p'.result = p.result) := by
  have hpid : p.id = pid := getTask_id hp
  have hfid : finished.id = fid := getTask_id hget
  unfold Scheduler.handle_task_completion
  simp only [hget]
  rw [resolveDependents_eq_self (s := s.bumpCounters finished.status)
    (by rw [bumpCounters_tasks]; exact hnodep)]
  unfold Scheduler.closeParent
  rw [hpar]
  dsimp only
  simp only [getTask_bumpCounters, hp]
  rw [hfid]
  rw [if_pos hmem]
  set q : Task := { p with waiting_for_subtasks := p.waiting_for_subtasks.erase fid } with hqdef
  by_cases herase : p.waiting_for_subtasks.erase fid = []
  · rw [if_pos (show q.waiting_for_subtasks = [] ∧ q.task_type = .planning from
      ⟨herase, htype⟩)]
    refine ⟨q.complete finished.result now, ?_, rfl, fun _ => ⟨rfl, rfl⟩,
      fun hne => absurd herase hne⟩
    have h0 : (s.bumpCounters finished.status).getTask (q.complete finished.result now).id =
        some p := by
      rw [show (q.complete finished.result now).id = pid from hpid, getTask_bumpCounters]
      exact hp
    have h1 := getTask_setTask_self h0
    rw [show (q.complete finished.result now).id = pid from hpid] at h1
    exact h1
  · rw [if_neg (show ¬ (q.waiting_for_subtasks = [] ∧ q.task_type = .planning) from
      fun hc => herase hc.1)]
    refine ⟨q, ?_, rfl, fun he => absurd he herase, fun _ => ⟨rfl, rfl⟩⟩
    have h0 : (s.bumpCounters finished.status).getTask q.id = some p := by
      rw [show q.id = pid from hpid, getTask_bumpCounters]
      exact hp
    have h1 := getTask_setTask_self h0
    rw [show q.id = pid from hpid] at h1
    exact h1

/-- C6 witness: the amended theorem at the concrete fixture (a FAILED last
subtask completes the parent with its result). -/
theorem C6_amended_witness :
    ∃ p', (sC6.handle_task_completion 1 5).getTask 0 = some p' ∧
      p'.status = .completed ∧ p'.result = some "partial" := by
  obtain ⟨p', h1, h2, h3, _⟩ :=
    C6_amended sC6 1 0 5 subC6 pC6 (by decide) (by decide) (by decide)
      (by decide) (by decide) (by decide)
  obtain ⟨hst, hres⟩ := h3 (by decide)
  exact ⟨p', h1, hst, hres⟩

/-! ## Claim C7: admission and dependency order -/

def pC7 : Task :=
  { id := 0, name := "root", payload := [("prompt", "goal")], task_type := .planning,
    status := .waiting_for_subtasks }

def sC7 : Scheduler := { tasks := [pC7], next_id := 1 }

/-- A plan with a dependency-free subtask `a` and a subtask `b` depending
on `a`. -/
def planC7 : Plan :=
  ⟨[⟨"a", "REASONING", [("prompt", "pa")], []⟩,
    ⟨"b", "REASONING", [("prompt", "pb")], ["a"]⟩]⟩

/-- The scheduler state after decomposing `planC7` and admitting the first
two entries of the pending queue. -/
def runC7 : Scheduler :=
  match sC7.decompose_and_enqueue_subtasks 0 planC7 with
  | .error _ => sC7
  | .ok s1 =>
    match s1.popPending with
    | none => s1
    | some (id1, s2) =>
      let s3 := s2.admitStandard id1
      match s3.popPending with
      | none => s3
      | some (id2, s4) => s4.admitStandard id2

/-- **C7, counterexample.**  The claim says a subtask with dependencies is
admitted to RUNNING only when every dependency is COMPLETED.  In the code,
`add_task` (called for *every* created subtask during decomposition) puts
the subtask on the pending queue immediately, so `b` is admitted while its
dependency `a` is merely RUNNING — and the dependency-free `a` is even
enqueued twice (the leftover queue entry). -/
theorem C7_counterexample :
    (runC7.getTask 2).map Task.status = some .running ∧
    (runC7.getTask 2).map Task.waiting_for_dependencies = some [1] ∧
    (runC7.getTask 1).map Task.status = some .running ∧
    ¬ ((runC7.getTask 1).map Task.status = some .completed) ∧
    runC7.pending_queue = [1] := by
  decide

/-- **C7, amended.**  Decomposition enqueues *every* created subtask via
`add_task`, dependencies or not (dependency-free subtasks once more in the
third pass), and admission (`_drive_task`'s standard step) sets the status
to RUNNING without consulting `waiting_for_dependencies` — so a subtask
can start before its dependencies complete, and `u.completed_at ≤
v.started_at` is not guaranteed. -/
theorem C7_amended (s : Scheduler) (parentId : Nat) (plan : Plan)
    (s' : Scheduler) (ts : List Task)
    (hne : ¬ plan.subtasks = [])
    (hmk : mkSubtasks plan.subtasks s.next_id = .ok ts)
    (hdec : s.decompose_and_enqueue_subtasks parentId plan = .ok s') :
    (∀ t ∈ ts, t.id ∈ s'.pending_queue) ∧
    (∀ (σ : Scheduler) (tid : Nat) (task : Task), σ.getTask tid = some task →
      ∃ t', (σ.admitStandard tid).getTask tid = some t' ∧ t'.status = .running ∧
        t'.waiting_for_dependencies = task.waiting_for_dependencies) := by
  constructor
  · intro t ht
    unfold Scheduler.decompose_and_enqueue_subtasks at hdec
    rw [if_neg hne, hmk] at hdec
    dsimp only at hdec
    injection hdec with hdec
    subst hdec
    unfold Scheduler.thirdPass
    obtain ⟨e, he⟩ := foldl_thirdPassStep_pending (ts.map (·.id))
      (({ s with next_id := s.next_id + plan.subtasks.length } : Scheduler).secondPass
        parentId ts)
    rw [he]
    unfold Scheduler.secondPass
    rw [foldl_secondPassStep_pending]
    refine List.mem_append.mpr (Or.inl (List.mem_append.mpr (Or.inr ?_)))
    exact List.mem_map_of_mem _ ht
  · intro σ tid task hget
    unfold Scheduler.admitStandard
    simp only [hget]
    exact ⟨task.update_status .running,
      getTask_setTask_of_getTask hget rfl, rfl, rfl⟩

/-- The subtasks created for `planC7`. -/
def tsC7 : List Task :=
  match mkSubtasks planC7.subtasks sC7.next_id with
  | .ok ts => ts
  | .error _ => []

/-- The scheduler state after decomposing `planC7`. -/
def decC7 : Scheduler :=
  match sC7.decompose_and_enqueue_subtasks 0 planC7 with
  | .ok s => s
  | .error _ => sC7

/-- The dependent subtask `b` as stored after decomposition. -/
def bC7 : Task :=
  { id := 2, name := "b", payload := [("prompt", "pb")], task_type := .reasoning,
    parent := some 0, dependencies_names := ["a"], waiting_for_dependencies := [1] }

/-- C7 witness: the amended theorem at the concrete plan — every subtask,
the dependent `b` included, sits on the pending queue right after
decomposition, and admitting `b` sets it RUNNING with its dependency still
unresolved. -/
theorem C7_amended_witness :
    (∀ t ∈ tsC7, t.id ∈ decC7.pending_queue) ∧
    (∃ t', (decC7.admitStandard 2).getTask 2 = some t' ∧ t'.status = .running ∧
      t'.waiting_for_dependencies = bC7.waiting_for_dependencies) := by
  obtain ⟨h1, h2⟩ := C7_amended sC7 0 planC7 decC7 tsC7 (by decide) (by rfl) (by rfl)
  exact ⟨h1, h2 decC7 2 bC7 (by decide)⟩

/-! ## Claim C8: FINAL_SUMMARY prompt synthesis -/

theorem find?_map_replace (d : List (String × String)) (k v : String) :
    (d.map (fun kv => if kv.1 = k then (kv.1, v) else kv)).find? (fun kv => kv.1 = k) =
      (d.find? (fun kv => kv.1 = k)).map (fun kv => (kv.1, v)) := by
  induction d with
  | nil => simp
  | cons kv d ih =>
    by_cases h : kv.1 = k
    · rw [List.map_cons, if_pos h]
      rw [List.find?_cons_of_pos _ (by simp [h]), List.find?_cons_of_pos _ (by simp [h])]
      rfl
    · rw [List.map_cons, if_neg h]
      rw [List.find?_cons_of_neg _ (by simp [h]), List.find?_cons_of_neg _ (by simp [h])]
      exact ih

theorem pyDictGet_pyDictSet_self (d : List (String × String)) (k v : String) :
    pyDictGet (pyDictSet d k v) k = some v := by
  unfold pyDictGet pyDictSet
  by_cases h : (List.find? (fun kv => kv.1 = k) d).isSome
  · rw [if_pos h, find?_map_replace]
    obtain ⟨kv0, hkv0⟩ := Option.isSome_iff_exists.mp h
    rw [hkv0]
    rfl
  · rw [if_neg h]
    have hnone : List.find? (fun kv => kv.1 = k) d = none := by
      rw [← Option.not_isSome_iff_eq_none]
      exact h
    rw [List.find?_append, hnone]
    simp

def rootC8 : Task :=
  { id := 0, name := "root", payload := [("prompt", "Plan a trip")], task_type := .planning,
    status := .waiting_for_subtasks, waiting_for_subtasks := [1, 2] }

def depC8 : Task :=
  { id := 1, name := "get_weather", payload := [], task_type := .reasoning,
    status := .completed, result := some "sunny", parent := some 0 }

def sumC8 : Task :=
  { id := 2, name := "summarize", payload := [("prompt", "old")], task_type := .final_summary,
    parent := some 0, dependencies_names := ["get_weather"],
    waiting_for_dependencies := [] }

def sC8 : Scheduler := { tasks := [rootC8, depC8, sumC8], next_id := 3 }

/-- The prompt written into the FINAL_SUMMARY task at admission. -/
def promptC8 : Option String :=
  match (sC8.prepareFinalSummary 2).getTask 2 with
  | some t => pyDictGet t.payload "prompt"
  | none => none

set_option maxRecDepth 4000 in
/-- **C8, counterexample.**  The claim says the synthesised prompt contains
the original root goal and a `- Result from <name>: <json result>` section
per completed dependency.  At admission the completed dependency has
already been removed from `waiting_for_dependencies` — the set the loop
iterates — so no section is produced, and the goal is looked up under the
key `goal`, which the root payload does not carry, so the prompt carries
`N/A` instead of the root goal. -/
theorem C8_counterexample :
    promptC8 = some "Synthesize the results from the previous steps to provide a final answer to the user's request.\n\nOriginal user request: N/A\n\nHere are the results from the executed tools:\n" ∧
    ¬ ("get_weather".data <:+:
      "Synthesize the results from the previous steps to provide a final answer to the user's request.\n\nOriginal user request: N/A\n\nHere are the results from the executed tools:\n".data) ∧
    ¬ ("Plan a trip".data <:+:
      "Synthesize the results from the previous steps to provide a final answer to the user's request.\n\nOriginal user request: N/A\n\nHere are the results from the executed tools:\n".data) ∧
    ¬ ("sunny".data <:+:
      "Synthesize the results from the previous steps to provide a final answer to the user's request.\n\nOriginal user request: N/A\n\nHere are the results from the executed tools:\n".data) := by
  decide

/-- **C8, amended.**  When a FINAL_SUMMARY task is admitted after its
dependencies resolved (`waiting_for_dependencies` empty — the normal
case), the scheduler overwrites its payload's `prompt` with the fixed
header, a goal line reading the parent payload's `goal` key (defaulting to
`N/A`; the canonical root payload carries `prompt`, not `goal`), and *no*
per-dependency sections: the loop ranges over the already-emptied waiting
set, not over the completed dependencies. -/
theorem C8_amended (s : Scheduler) (tid pid : Nat) (task p : Task)
    (hget : s.getTask tid = some task) (hpar : task.parent = some pid)
    (hp : s.getTask pid = some p)
    (hw : task.waiting_for_dependencies = []) :
    ∃ t', (s.prepareFinalSummary tid).getTask tid = some t' ∧
      pyDictGet t'.payload "prompt" = some
        ("Synthesize the results from the previous steps to provide a final answer to the user's request.\n\n" ++
         "Original user request: " ++ ((pyDictGet p.payload "goal").getD "N/A") ++ "\n\n" ++
         "Here are the results from the executed tools:\n") ∧
      t'.status = task.status := by
  unfold Scheduler.prepareFinalSummary
  simp only [hget]
  rw [hpar]
  simp only [Option.some_bind]
  simp only [hp]
  rw [hw]
  refine ⟨_, getTask_setTask_of_getTask hget rfl, ?_, rfl⟩
  rw [pyDictGet_pyDictSet_self]
  unfold buildSummaryPrompt
  simp [String.join]

/-- C8 witness: the amended theorem at the concrete fixture — the prepared
prompt carries `N/A` and no dependency sections. -/
theorem C8_amended_witness :
    ∃ t', (sC8.prepareFinalSummary 2).getTask 2 = some t' ∧
      pyDictGet t'.payload "prompt" = some
        ("Synthesize the results from the previous steps to provide a final answer to the user's request.\n\n" ++
         "Original user request: " ++ "N/A" ++ "\n\n" ++
         "Here are the results from the executed tools:\n") ∧
      t'.status = sumC8.status := by
  obtain ⟨t', h1, h2, h3⟩ :=
    C8_amended sC8 2 0 sumC8 rootC8 (by decide) (by decide) (by decide) (by decide)
  rw [show pyDictGet rootC8.payload "goal" = none from by decide] at h2
  exact ⟨t', h1, h2, h3⟩

/-! ## Claim C9: tool-result ordering and conversation well-formedness -/

/-- **C9.**  For every tool-call batch of `n` calls, the scheduler's
execution loop produces exactly `n` tool-result messages in emission
order, the `i`-th carrying the `i`-th call's id and `role:"tool"`; and the
agent's resume step — which appends the assistant message holding the
calls followed by one tool message per call, in call order — preserves the
invariant that every `role:"tool"` message refers to a tool call of an
earlier assistant message. -/
theorem C9_tool_result_ordering (exec : ToolCall → String) (calls : List ToolCall)
    (ms : List Msg) (content : Option String) (pyStr : ToolResultMsg → String)
    (hwf : wfConversation ms) :
    (executeToolCalls exec calls).length = calls.length ∧
    (∀ i : Nat, ((executeToolCalls exec calls).get? i).map (·.tool_call_id) =
      ((calls.get? i).map (·.id))) ∧
    (∀ r ∈ executeToolCalls exec calls, r.role = "tool") ∧
    wfConversation
      (appendToolResults ms content calls (executeToolCalls exec calls) pyStr) :=
  ⟨executeToolCalls_length exec calls,
   executeToolCalls_id exec calls,
   executeToolCalls_role exec calls,
   wf_appendToolResults ms content calls (executeToolCalls exec calls) pyStr hwf⟩

/-- C9 witness: a concrete one-call round-trip on a single-user-message
conversation. -/
theorem C9_witness :
    (executeToolCalls (fun _ => "sunny") [⟨"call_1", "get_weather", "args"⟩]).length =
      ([⟨"call_1", "get_weather", "args"⟩] : List ToolCall).length ∧
    (∀ i : Nat,
      ((executeToolCalls (fun _ => "sunny") [⟨"call_1", "get_weather", "args"⟩]).get? i).map
          (·.tool_call_id) =
        ((([⟨"call_1", "get_weather", "args"⟩] : List ToolCall).get? i).map (·.id))) ∧
    (∀ r ∈ executeToolCalls (fun _ => "sunny") [⟨"call_1", "get_weather", "args"⟩],
      r.role = "tool") ∧
    wfConversation
      (appendToolResults [Msg.user "hi"] none [⟨"call_1", "get_weather", "args"⟩]
        (executeToolCalls (fun _ => "sunny") [⟨"call_1", "get_weather", "args"⟩])
        (fun r => r.content)) :=
  C9_tool_result_ordering (fun _ => "sunny") [⟨"call_1", "get_weather", "args"⟩]
    [Msg.user "hi"] none (fun r => r.content)
    (by
      intro j
      unfold toolIdOkAt
      cases j with
      | zero => trivial
      | succ n => cases n <;> trivial)
